import Mathlib

/-!
Shallow embedding of `src/backend/models/Subscription.js` (the Subscription
model of the subwallet-app backend) and verification of the spec's claims
about it.

Modelling conventions:
* JS numbers are modelled as `ℚ` (exact arithmetic over the rationals);
  every quantity the claims test is produced by exact decimal/integer
  arithmetic, so no floating-point rounding is at stake.
* A JS `Date` instant is its epoch timestamp in milliseconds, a `ℚ`.
* For `calculateNextRenewal`, which works with calendar components, a JS
  `Date` is modelled as a calendar date `CalDate` (year, 0-based month,
  day-of-month).  All `Date` values built by that method are midnight
  instants, so the comparison `nextRenewal <= now` depends only on the
  calendar day of `now`; the model therefore carries no time-of-day.
* A missing (`undefined`/`null`) field of an incoming payment object is
  `none`; `x || default` on such a field is `Option.getD`.
-/

namespace Subwallet

/-- One entry of `paymentHistory` as stored by the schema (date, amount,
currency, emailSubject, confidence).  `date` is an epoch-millisecond
timestamp. -/
structure PaymentEvent where
  date : ℚ
  amount : ℚ
  currency : String
  emailSubject : String
  confidence : ℚ
deriving DecidableEq

/-- The argument of `addPayment`; `none` marks a field the caller did not
supply, which the method replaces by a default via `||`. -/
structure PaymentData where
  date : Option ℚ
  amount : ℚ
  currency : Option String
  subject : Option String
  confidence : Option ℚ

/-- Return value of `analyzePaymentConsistency`.  The early-return branch
(fewer than 2 payments) carries no `paymentCount` field, hence the
`Option Nat`. -/
structure Analysis where
  isConsistent : Bool
  averageInterval : ℚ
  hasMonthlyPattern : Bool
  paymentCount : Option Nat
deriving DecidableEq

/-- Milliseconds per day, the `1000 * 60 * 60 * 24` of the source. -/
def msPerDay : ℚ := 1000 * 60 * 60 * 24

/-- `this.paymentHistory.sort((a, b) => new Date(a.date) - new Date(b.date))`
(line 210): ascending sort by `date`.  JS `Array.prototype.sort` is a stable
sort; a stable insertion sort models it. -/
def sortPayments (l : List PaymentEvent) : List PaymentEvent :=
  List.insertionSort (fun a b => a.date ≤ b.date) l

/-- The `intervals` loop (lines 213-217): day-gaps between consecutive
entries of the (sorted) list, each `(later - earlier) / msPerDay`. -/
def intervalsOf : List PaymentEvent → List ℚ
  | a :: b :: rest => (b.date - a.date) / msPerDay :: intervalsOf (b :: rest)
  | _ => []

/-- `intervals.reduce((a, b) => a + b, 0) / intervals.length` (line 219). -/
def averageIntervalOf (history : List PaymentEvent) : ℚ :=
  (intervalsOf (sortPayments history)).foldl (· + ·) 0
    / ((intervalsOf (sortPayments history)).length : ℚ)

/-- `amounts.reduce((a, b) => a + b, 0) / amounts.length` (line 224), where
`amounts = sortedPayments.map(p => p.amount)`. -/
def avgAmountOf (history : List PaymentEvent) : ℚ :=
  (((sortPayments history).map (·.amount)).foldl (· + ·) 0)
    / (((sortPayments history).map (·.amount)).length : ℚ)

/-- `analyzePaymentConsistency` (lines 200-233), as a function of the stored
history: early return for fewer than 2 payments, otherwise the monthly
pattern test `25 <= averageInterval <= 35` and the amount-consistency test
`Math.abs(amount - avgAmount) <= avgAmount * 0.1` over all amounts. -/
def analyzePaymentConsistency (history : List PaymentEvent) : Analysis :=
  if history.length < 2 then
    { isConsistent := false
      averageInterval := 0
      hasMonthlyPattern := false
      paymentCount := none }
  else
    { isConsistent := ((sortPayments history).map (·.amount)).all fun amount =>
        decide (|amount - avgAmountOf history| ≤ avgAmountOf history * (1 / 10))
      averageInterval := averageIntervalOf history
      hasMonthlyPattern :=
        decide (25 ≤ averageIntervalOf history ∧ averageIntervalOf history ≤ 35)
      paymentCount := some history.length }

/-- The history as the method leaves it behind: line 210 sorts
`this.paymentHistory` in place (JS `sort` mutates the array), but the
early return on line 201 fires before the sort when there are fewer than
2 entries. -/
def analyzeMutatedHistory (history : List PaymentEvent) : List PaymentEvent :=
  if history.length < 2 then history else sortPayments history

/-- Claim-side definition (spec wording): the arithmetic mean of the
amounts of the history as given, before any sorting. -/
def meanAmount (history : List PaymentEvent) : ℚ :=
  ((history.map (·.amount)).foldl (· + ·) 0) / (history.length : ℚ)

theorem sortPayments_perm (l : List PaymentEvent) : (sortPayments l).Perm l :=
  List.perm_insertionSort _ l

theorem sortPayments_length (l : List PaymentEvent) :
    (sortPayments l).length = l.length :=
  (sortPayments_perm l).length_eq

theorem analyzeMutatedHistory_length (l : List PaymentEvent) :
    (analyzeMutatedHistory l).length = l.length := by
  unfold analyzeMutatedHistory
  split
  · rfl
  · exact sortPayments_length l

theorem intervalsOf_length (l : List PaymentEvent) :
    (intervalsOf l).length = l.length - 1 := by
  induction l with
  | nil => rfl
  | cons a t ih =>
    cases t with
    | nil => rfl
    | cons b r =>
      simp only [intervalsOf, List.length_cons] at ih ⊢
      omega

theorem foldl_add_perm {l₁ l₂ : List ℚ} (h : l₁.Perm l₂) :
    l₁.foldl (· + ·) 0 = l₂.foldl (· + ·) 0 := by
  have h1 : l₁.foldl (· + ·) 0 = l₁.sum := by
    simp [List.sum_eq_foldl]
  have h2 : l₂.foldl (· + ·) 0 = l₂.sum := by
    simp [List.sum_eq_foldl]
  rw [h1, h2, h.sum_eq]

/-- The mean of the amounts is insensitive to the sorting: `avgAmountOf`
(computed over the sorted history in the source) agrees with the claim's
`meanAmount` over the original history. -/
theorem avgAmountOf_eq_meanAmount (history : List PaymentEvent) :
    avgAmountOf history = meanAmount history := by
  unfold avgAmountOf meanAmount
  have hperm : ((sortPayments history).map (·.amount)).Perm (history.map (·.amount)) :=
    (sortPayments_perm history).map _
  rw [foldl_add_perm hperm, hperm.length_eq, List.length_map]

/-- A JS `Date` at local midnight, by calendar components: `month` is 0-based
(0 = January) exactly as in JS. -/
structure CalDate where
  year : Int
  month : Nat
  day : Nat
deriving DecidableEq

/-- Gregorian leap-year rule, as JS `Date` applies it.  (`%` here is `Int.emod`;
for the divisibility-by-0 tests it agrees with the JS remainder operator.) -/
def isLeapYear (y : Int) : Bool :=
  y % 4 == 0 && (y % 100 != 0 || y % 400 == 0)

/-- Number of days of 0-based month `m` of year `y`.  The catch-all arm is
never reached on normalized months (0-11). -/
def daysInMonth (y : Int) (m : Nat) : Nat :=
  match m with
  | 0 => 31
  | 1 => if isLeapYear y then 29 else 28
  | 2 => 31
  | 3 => 30
  | 4 => 31
  | 5 => 30
  | 6 => 31
  | 7 => 31
  | 8 => 30
  | 9 => 31
  | 10 => 30
  | _ => 31

theorem daysInMonth_ge (y : Int) (m : Nat) : 28 ≤ daysInMonth y m := by
  unfold daysInMonth
  split
  any_goals omega
  split <;> omega

theorem daysInMonth_le (y : Int) (m : Nat) : daysInMonth y m ≤ 31 := by
  unfold daysInMonth
  split
  any_goals omega
  split <;> omega

/-- The month before `(y, m)`. -/
def prevYM (y : Int) (m : Nat) : Int × Nat :=
  if m = 0 then (y - 1, 11) else (y, m - 1)

/-- The month after `(y, m)`. -/
def nextYM (y : Int) (m : Nat) : Int × Nat :=
  if m = 11 then (y + 1, 0) else (y, m + 1)

/-- Normalization of an out-of-range day-of-month by borrowing/carrying whole
months, which is what JS `Date` timestamp arithmetic does with day arguments
outside `1 .. daysInMonth`: day 0 is the last day of the previous month, day
`daysInMonth + k` is day `k` of the next month, and so on. -/
def normDay (y : Int) (m : Nat) (d : Int) : CalDate :=
  if d < 1 then
    normDay (prevYM y m).1 (prevYM y m).2
      (d + (daysInMonth (prevYM y m).1 (prevYM y m).2 : Int))
  else if (daysInMonth y m : Int) < d then
    normDay (nextYM y m).1 (nextYM y m).2 (d - (daysInMonth y m : Int))
  else
    ⟨y, m, d.toNat⟩
termination_by (if d < 1 then (1 - d).toNat + 64 else d.toNat)
decreasing_by
  · have h1 := daysInMonth_ge (prevYM y m).1 (prevYM y m).2
    have h2 := daysInMonth_le (prevYM y m).1 (prevYM y m).2
    split <;> omega
  · have h1 := daysInMonth_ge y m
    split <;> omega

/-- `new Date(y, m, d)` for integer arguments: JS first folds the month into
the year (`y + floor(m / 12)`, `m mod 12`), then normalizes the day. -/
def mkDate (y m d : Int) : CalDate :=
  normDay (y + Int.ediv m 12) (Int.emod m 12).toNat d

/-- `dt.setMonth(m)`: keeps the day-of-month and renormalizes. -/
def setMonth (dt : CalDate) (m : Int) : CalDate :=
  mkDate dt.year m dt.day

/-- `dt.setDate(0)`: day 0 normalizes to the last day of the previous
month (the source's comment: "Set to last day of previous month"). -/
def setDate0 (dt : CalDate) : CalDate :=
  mkDate dt.year dt.month 0

/-- Calendar order on dates.  For the source's `nextRenewal <= now`, where
`nextRenewal` is a midnight instant: midnight of day `a` is `<=` the instant
of `now` (which lies on calendar day `b`, at or after its midnight) exactly
when `a` is at most `b` in calendar order. -/
def dateLE (a b : CalDate) : Prop :=
  a.year < b.year
    ∨ (a.year = b.year
        ∧ (a.month < b.month ∨ (a.month = b.month ∧ a.day ≤ b.day)))

instance : DecidablePred fun p : CalDate × CalDate => dateLE p.1 p.2 :=
  fun _ => by unfold dateLE; infer_instance

instance (a b : CalDate) : Decidable (dateLE a b) := by
  unfold dateLE; infer_instance

/-- `calculateNextRenewal` (lines 119-133) as a function of `renewalDay` and
the calendar day of "now".  Per the note on `dateLE`, the time-of-day of
"now" does not influence any branch, so it is not modelled. -/
def calculateNextRenewal (renewalDay : Nat) (now : CalDate) : CalDate :=
  let candidate := mkDate now.year now.month renewalDay
  let advanced :=
    if dateLE candidate now then setMonth candidate ((candidate.month : Int) + 1)
    else candidate
  if advanced.day ≠ renewalDay then setDate0 advanced else advanced

theorem normDay_base (y : Int) (m : Nat) (d : Int) (h1 : ¬ d < 1)
    (h2 : ¬ (daysInMonth y m : Int) < d) : normDay y m d = ⟨y, m, d.toNat⟩ := by
  rw [normDay, if_neg h1, if_neg h2]

theorem normDay_borrow (y : Int) (m : Nat) (d : Int) (h : d < 1) :
    normDay y m d
      = normDay (prevYM y m).1 (prevYM y m).2
          (d + (daysInMonth (prevYM y m).1 (prevYM y m).2 : Int)) := by
  rw [normDay, if_pos h]

theorem normDay_carry (y : Int) (m : Nat) (d : Int) (h1 : ¬ d < 1)
    (h2 : (daysInMonth y m : Int) < d) :
    normDay y m d
      = normDay (nextYM y m).1 (nextYM y m).2 (d - (daysInMonth y m : Int)) := by
  rw [normDay, if_neg h1, if_pos h2]

/-- The record state: the schema fields of lines 3-116 that the analyzed
methods read or write.  `nextRenewal` is a calendar date, the payment
timestamps are epoch milliseconds. -/
structure Subscription where
  serviceName : String
  amount : ℚ
  currency : String
  renewalDay : Nat
  nextRenewal : Option CalDate
  category : String
  description : String
  isActive : Bool
  detectedFromEmail : Bool
  paymentHistory : List PaymentEvent
  cancellationDate : Option ℚ
  cancellationReason : String
  lastPaymentDate : Option ℚ
  isRecurring : Bool
  confidenceScore : ℚ
  hasPaymentHistory : Bool
  hasConsistentRenewalDate : Bool
  paymentCount : Nat

/-- A newly created record: required fields from the caller, everything
else at its schema default. -/
def freshSubscription (name : String) (amount : ℚ) (currency : String)
    (renewalDay : Nat) : Subscription where
  serviceName := name
  amount := amount
  currency := currency
  renewalDay := renewalDay
  nextRenewal := none
  category := "Other"
  description := ""
  isActive := true
  detectedFromEmail := false
  paymentHistory := []
  cancellationDate := none
  cancellationReason := ""
  lastPaymentDate := none
  isRecurring := false
  confidenceScore := 0
  hasPaymentHistory := false
  hasConsistentRenewalDate := false
  paymentCount := 0

/-- The entry `addPayment` pushes (lines 137-143), with the `||` defaults:
missing date becomes "now", missing currency `'USD'`, missing subject `''`,
missing confidence `0`. -/
def storedEvent (p : PaymentData) (now : ℚ) : PaymentEvent where
  date := p.date.getD now
  amount := p.amount
  currency := p.currency.getD "USD"
  emailSubject := p.subject.getD ""
  confidence := p.confidence.getD 0

/-- `addPayment` (lines 136-160).  `now` is the timestamp of the `new Date()`
calls (the two calls on lines 138 and 145 happen within the same call, so one
instant models both).  When the new count exceeds 1, the nested call to
`analyzePaymentConsistency` also re-sorts the stored history in place
(see `analyzeMutatedHistory`). -/
def addPayment (s : Subscription) (p : PaymentData) (now : ℚ) : Subscription :=
  let pushed := s.paymentHistory ++ [storedEvent p now]
  let s1 := { s with
    paymentHistory := pushed
    lastPaymentDate := some (p.date.getD now)
    paymentCount := pushed.length }
  if 1 < s1.paymentCount then
    let analysis := analyzePaymentConsistency s1.paymentHistory
    let s2 := { s1 with
      paymentHistory := analyzeMutatedHistory s1.paymentHistory
      isRecurring := true
      hasConsistentRenewalDate := analysis.hasMonthlyPattern
      hasPaymentHistory := true }
    if analysis.isConsistent && analysis.hasMonthlyPattern then
      { s2 with confidenceScore := max s2.confidenceScore 8 }
    else s2
  else s1

/-- `cancelSubscription` (lines 163-167); `reason = none` models a call
without an argument, which the default parameter turns into
`'User cancelled'`. -/
def cancelSubscription (s : Subscription) (reason : Option String) (now : ℚ) :
    Subscription :=
  { s with
    isActive := false
    cancellationDate := some now
    cancellationReason := reason.getD "User cancelled" }

/-- The state left behind by a call to `analyzePaymentConsistency`: only the
in-place sort of the history is observable (see `analyzeMutatedHistory`). -/
def runAnalyze (s : Subscription) : Subscription :=
  { s with paymentHistory := analyzeMutatedHistory s.paymentHistory }

/-- `daysSinceLastPayment` of `isLikelyValid` (lines 172-174):
`Math.floor((new Date() - this.lastPaymentDate) / (1000*60*60*24))`, or 999
when no payment was ever recorded. -/
def daysSinceLastPayment (s : Subscription) (now : ℚ) : Int :=
  match s.lastPaymentDate with
  | none => 999
  | some d => ⌊(now - d) / (1000 * 60 * 60 * 24)⌋

/-- `isLikelyValid` (lines 170-197): the four-rule decision chain. -/
def isLikelyValid (s : Subscription) (now : ℚ) : Bool :=
  let days := daysSinceLastPayment s now
  if 180 < days then false
  else if 1 < s.paymentCount ∧ s.isRecurring = true ∧ days ≤ 90 then true
  else if s.paymentCount = 1 ∧ 6 ≤ s.confidenceScore ∧ days ≤ 60 then true
  else if days ≤ 30 ∧ 4 ≤ s.confidenceScore then true
  else false

/-- The `pre('save')` hook (lines 235-247): recompute `nextRenewal` when it
is unset, `renewalDay` was modified, or the document is new; then force it
to `null` when the record is cancelled. -/
def preSave (s : Subscription) (isNew modifiedRenewalDay : Bool)
    (nowCal : CalDate) : Subscription :=
  let s1 :=
    if s.nextRenewal = none ∨ modifiedRenewalDay = true ∨ isNew = true then
      { s with nextRenewal := some (calculateNextRenewal s.renewalDay nowCal) }
    else s
  if s1.cancellationDate ≠ none then { s1 with nextRenewal := none } else s1

/-- States reachable from a fresh record through the model's operations
(`isLikelyValid` reads but never writes, so it adds no transition). -/
inductive Reachable : Subscription → Prop where
  | fresh (name : String) (amount : ℚ) (currency : String) (renewalDay : Nat) :
      Reachable (freshSubscription name amount currency renewalDay)
  | payment {s : Subscription} (p : PaymentData) (now : ℚ) :
      Reachable s → Reachable (addPayment s p now)
  | cancel {s : Subscription} (reason : Option String) (now : ℚ) :
      Reachable s → Reachable (cancelSubscription s reason now)
  | analyze {s : Subscription} :
      Reachable s → Reachable (runAnalyze s)
  | save {s : Subscription} (isNew modifiedRenewalDay : Bool) (nowCal : CalDate) :
      Reachable s → Reachable (preSave s isNew modifiedRenewalDay nowCal)

/-- Truncation of a rational toward zero (the rounding mode claim C2 names). -/
def truncQ (q : ℚ) : Int :=
  if 0 ≤ q then ⌊q⌋ else ⌈q⌉

/-- Claim-side restatement of the validity estimator, written from the
spec's rule list with `daysSinceLastPayment` truncated toward zero, to be
compared with the source-side `isLikelyValid`. -/
def specDaysSince (s : Subscription) (now : ℚ) : Int :=
  match s.lastPaymentDate with
  | none => 999
  | some d => truncQ ((now - d) / (1000 * 60 * 60 * 24))

/-- Claim-side restatement of the rule chain of C2, first match winning. -/
def specIsLikelyValid (s : Subscription) (now : ℚ) : Bool :=
  let days := specDaysSince s now
  if 180 < days then false
  else if 1 < s.paymentCount ∧ s.isRecurring = true ∧ days ≤ 90 then true
  else if s.paymentCount = 1 ∧ 6 ≤ s.confidenceScore ∧ days ≤ 60 then true
  else if days ≤ 30 ∧ 4 ≤ s.confidenceScore then true
  else false

/-! Concrete inputs used by the examples, counterexamples and witnesses. -/

/-- A 100-unit payment 30 days after the epoch. -/
def evA : PaymentEvent := ⟨2592000000, 100, "USD", "", 5⟩

/-- A 100-unit payment 60 days after the epoch. -/
def evB : PaymentEvent := ⟨5184000000, 100, "USD", "", 5⟩

/-- A 100-unit payment 90 days after the epoch. -/
def evC : PaymentEvent := ⟨7776000000, 100, "USD", "", 5⟩

/-- A payment of amount 10 at the epoch. -/
def evTen : PaymentEvent := ⟨0, 10, "USD", "", 0⟩

/-- A payment of amount 50, 30 days after the epoch. -/
def evFifty : PaymentEvent := ⟨2592000000, 50, "USD", "", 0⟩

/-- Incoming payment dated 30 days after the epoch. -/
def payLate : PaymentData := ⟨some 2592000000, 100, none, none, none⟩

/-- Incoming payment dated at the epoch (older than `payLate`). -/
def payEarly : PaymentData := ⟨some 0, 100, none, none, none⟩

/-- A typical new record. -/
def subBase : Subscription := freshSubscription "Netflix" 100 "USD" 15

/-- `subBase` after recording the later-dated payment. -/
def subLate : Subscription := addPayment subBase payLate 2592000000

/-- C1: for histories of at least 2 events, `averageInterval` is the mean of
the day-gaps of the date-sorted events, `hasMonthlyPattern` holds exactly for
a mean in [25, 35], `isConsistent` holds exactly when every event's amount is
within a tenth of the mean amount; payments 30 days apart with equal amounts
give a monthly, consistent analysis, and amounts 10 and 50 are inconsistent. -/
theorem analyzePaymentConsistency_spec (h : List PaymentEvent)
    (hlen : 2 ≤ h.length) :
    (analyzePaymentConsistency h).averageInterval
        = (intervalsOf (sortPayments h)).foldl (· + ·) 0
            / ((intervalsOf (sortPayments h)).length : ℚ)
    ∧ ((analyzePaymentConsistency h).hasMonthlyPattern = true
        ↔ 25 ≤ (analyzePaymentConsistency h).averageInterval
            ∧ (analyzePaymentConsistency h).averageInterval ≤ 35)
    ∧ ((analyzePaymentConsistency h).isConsistent = true
        ↔ ∀ e ∈ h, |e.amount - meanAmount h| ≤ meanAmount h * (1 / 10))
    ∧ (analyzePaymentConsistency [evA, evB, evC]).hasMonthlyPattern = true
    ∧ (analyzePaymentConsistency [evA, evB, evC]).isConsistent = true
    ∧ (analyzePaymentConsistency [evTen, evFifty]).isConsistent = false := by
  have hnot : ¬ h.length < 2 := by omega
  refine ⟨?_, ?_, ?_, ?_, ?_, ?_⟩
  · unfold analyzePaymentConsistency
    rw [if_neg hnot]
    rfl
  · unfold analyzePaymentConsistency
    rw [if_neg hnot]
    simp only [decide_eq_true_eq]
  · unfold analyzePaymentConsistency
    rw [if_neg hnot]
    simp only [List.all_eq_true, decide_eq_true_eq, List.forall_mem_map,
      avgAmountOf_eq_meanAmount]
    constructor
    · intro H e he
      exact H e ((sortPayments_perm h).mem_iff.mpr he)
    · intro H e he
      exact H e ((sortPayments_perm h).mem_iff.mp he)
  · norm_num [analyzePaymentConsistency, averageIntervalOf, sortPayments,
      intervalsOf, List.insertionSort, List.orderedInsert, evA, evB, evC,
      msPerDay]
  · norm_num [analyzePaymentConsistency, avgAmountOf, sortPayments,
      List.insertionSort, List.orderedInsert, evA, evB, evC]
  · norm_num [analyzePaymentConsistency, avgAmountOf, sortPayments,
      List.insertionSort, List.orderedInsert, evTen, evFifty]

/-- Witness for C1 at the concrete two-event history of amounts 10 and 50. -/
theorem analyzePaymentConsistency_spec_witness :
    2 ≤ ([evTen, evFifty] : List PaymentEvent).length
    ∧ ((analyzePaymentConsistency [evTen, evFifty]).isConsistent = true
        ↔ ∀ e ∈ [evTen, evFifty],
            |e.amount - meanAmount [evTen, evFifty]|
              ≤ meanAmount [evTen, evFifty] * (1 / 10)) :=
  ⟨by simp, (analyzePaymentConsistency_spec [evTen, evFifty] (by simp)).2.2.1⟩

/-- C2: the validity estimator agrees, in every state and at every time, with
the spec's four-rule chain read with `daysSinceLastPayment` truncated toward
zero: the source floors instead, but floor and truncation differ only on
negative day counts, where every rule tests the same way. -/
theorem isLikelyValid_eq_spec_rules (s : Subscription) (now : ℚ) :
    isLikelyValid s now = specIsLikelyValid s now := by
  unfold isLikelyValid specIsLikelyValid
  rcases hl : s.lastPaymentDate with _ | d
  · unfold daysSinceLastPayment specDaysSince
    rw [hl]
  · have hdays : daysSinceLastPayment s now
        = ⌊(now - d) / (1000 * 60 * 60 * 24)⌋ := by
      unfold daysSinceLastPayment; rw [hl]
    have hspec : specDaysSince s now
        = truncQ ((now - d) / (1000 * 60 * 60 * 24)) := by
      unfold specDaysSince; rw [hl]
    rw [hdays, hspec]
    set q : ℚ := (now - d) / (1000 * 60 * 60 * 24) with hq
    by_cases h0 : 0 ≤ q
    · rw [truncQ, if_pos h0]
    · rw [truncQ, if_neg h0]
      push_neg at h0
      have hce : ⌈q⌉ ≤ 0 := Int.ceil_le.mpr (by exact_mod_cast h0.le)
      have hfl : ⌊q⌋ ≤ 0 := le_trans (Int.floor_le_ceil q) hce
      have t1 : ¬ (180 < ⌊q⌋) := by omega
      have t1' : ¬ (180 < ⌈q⌉) := by omega
      have t2 : (⌊q⌋ ≤ 90) = True := by simp; omega
      have t2' : (⌈q⌉ ≤ 90) = True := by simp; omega
      have t3 : (⌊q⌋ ≤ 60) = True := by simp; omega
      have t3' : (⌈q⌉ ≤ 60) = True := by simp; omega
      have t4 : (⌊q⌋ ≤ 30) = True := by simp; omega
      have t4' : (⌈q⌉ ≤ 30) = True := by simp; omega
      simp only [if_neg t1, if_neg t1', t2, t2', t3, t3', t4, t4', and_true]

/-- C8: with fewer than 2 payments the analyzer returns exactly the early
record (no `paymentCount` field), and with at least 2 payments both
divisors — the interval count and the amount count — are nonzero. -/
theorem analyze_few_payments_safe (h : List PaymentEvent) :
    (h.length < 2 →
      analyzePaymentConsistency h
        = { isConsistent := false
            averageInterval := 0
            hasMonthlyPattern := false
            paymentCount := none })
    ∧ (2 ≤ h.length →
        0 < (intervalsOf (sortPayments h)).length
        ∧ ((intervalsOf (sortPayments h)).length : ℚ) ≠ 0
        ∧ (((sortPayments h).map (·.amount)).length : ℚ) ≠ 0) := by
  constructor
  · intro hlt
    unfold analyzePaymentConsistency
    rw [if_pos hlt]
  · intro hge
    have hint : (intervalsOf (sortPayments h)).length = h.length - 1 := by
      rw [intervalsOf_length, sortPayments_length]
    have hpos : 0 < (intervalsOf (sortPayments h)).length := by omega
    refine ⟨hpos, ?_, ?_⟩
    · exact_mod_cast Nat.pos_iff_ne_zero.mp hpos
    · have : ((sortPayments h).map (·.amount)).length = h.length := by
        rw [List.length_map, sortPayments_length]
      rw [this]
      exact_mod_cast (by omega : h.length ≠ 0)

/-- Witness for C8 at the empty history and at a concrete 2-event history. -/
theorem analyze_few_payments_safe_witness :
    (analyzePaymentConsistency []
      = { isConsistent := false
          averageInterval := 0
          hasMonthlyPattern := false
          paymentCount := none })
    ∧ 0 < (intervalsOf (sortPayments [evTen, evFifty])).length :=
  ⟨(analyze_few_payments_safe []).1 (by simp),
   ((analyze_few_payments_safe [evTen, evFifty]).2 (by simp)).1⟩

theorem normDay_feb_overflow_2025 : normDay 2025 1 29 = ⟨2025, 2, 1⟩ := by
  rw [normDay_carry 2025 1 29 (by decide) (by decide),
      show nextYM 2025 1 = (2025, 2) from by decide,
      show (29 - (daysInMonth 2025 1 : Int)) = 1 from by decide,
      normDay_base 2025 2 1 (by decide) (by decide)]
  rfl

theorem normDay_mar_day0_2025 : normDay 2025 2 0 = ⟨2025, 1, 28⟩ := by
  rw [normDay_borrow 2025 2 0 (by decide),
      show prevYM 2025 2 = (2025, 1) from by decide,
      show ((0 : Int) + (daysInMonth 2025 1 : Int)) = 28 from by decide,
      normDay_base 2025 1 28 (by decide) (by decide)]
  rfl

theorem mkDate_feb29_2025 : mkDate 2025 1 29 = ⟨2025, 2, 1⟩ := by
  unfold mkDate
  rw [show (2025 + Int.ediv 1 12 : Int) = 2025 from by decide,
      show (Int.emod 1 12).toNat = 1 from by decide]
  exact normDay_feb_overflow_2025

/-- C3 fails on the code: with renewal day 29 and "now" being
February 28, 2025 (the last day of a month shorter than the renewal day),
the candidate `new Date(2025, 1, 29)` normalizes to March 1, the
month-advance test is skipped because March 1 is after "now", and
`setDate(0)` then rolls back to February 28, 2025 — the current day itself.
The returned midnight instant is not strictly after "now" (it is in the
past for any time of day after midnight), although February 2025, whose
length 28 is exceeded by the renewal day, admits March 29 as the next
matching date. -/
theorem calculateNextRenewal_short_month_end :
    calculateNextRenewal 29 ⟨2025, 1, 28⟩ = ⟨2025, 1, 28⟩
    ∧ daysInMonth 2025 1 = 28 := by
  constructor
  · unfold calculateNextRenewal
    dsimp only
    push_cast
    rw [mkDate_feb29_2025]
    rw [if_neg (by decide : ¬ dateLE ⟨2025, 2, 1⟩ ⟨2025, 1, 28⟩)]
    rw [if_pos (by decide : (CalDate.mk 2025 2 1).day ≠ 29)]
    unfold setDate0 mkDate
    dsimp only
    push_cast
    rw [show (2025 + Int.ediv 2 12 : Int) = 2025 from by decide,
        show (Int.emod 2 12).toNat = 2 from by decide]
    exact normDay_mar_day0_2025
  · decide

/-- A payment event 30 days after the epoch as `addPayment` stores it. -/
def eLate : PaymentEvent := ⟨2592000000, 100, "USD", "", 0⟩

/-- A payment event at the epoch as `addPayment` stores it. -/
def eEarly : PaymentEvent := ⟨0, 100, "USD", "", 0⟩

/-- A record whose stored history is out of date order. -/
def subOutOfOrder : Subscription :=
  { subBase with paymentHistory := [eLate, eEarly] }

/-- C4 fails on the code: `analyzePaymentConsistency` sorts
`this.paymentHistory` in place (JS `Array.prototype.sort` mutates), so on a
record whose history is out of date order the call reorders the stored
history instead of leaving the record unchanged. -/
theorem analyzePaymentConsistency_mutates_record :
    (runAnalyze subOutOfOrder).paymentHistory ≠ subOutOfOrder.paymentHistory := by
  have h1 : (runAnalyze subOutOfOrder).paymentHistory = [eEarly, eLate] := by
    norm_num [runAnalyze, subOutOfOrder, subBase, freshSubscription,
      analyzeMutatedHistory, sortPayments, List.insertionSort,
      List.orderedInsert, eEarly, eLate]
  have h2 : subOutOfOrder.paymentHistory = [eLate, eEarly] := rfl
  rw [h1, h2]
  intro hEq
  rw [List.cons.injEq] at hEq
  have : eEarly.date = eLate.date := by rw [hEq.1]
  norm_num [eEarly, eLate] at this

theorem addPayment_paymentHistory_eq (s : Subscription) (p : PaymentData)
    (now : ℚ) :
    (addPayment s p now).paymentHistory
      = analyzeMutatedHistory (s.paymentHistory ++ [storedEvent p now]) := by
  unfold addPayment
  dsimp only
  split_ifs with h1 h2
  · rfl
  · rfl
  · unfold analyzeMutatedHistory
    rw [if_pos (by
      simp only [List.length_append, List.length_cons, List.length_nil] at h1 ⊢
      omega)]

theorem addPayment_paymentCount_eq (s : Subscription) (p : PaymentData)
    (now : ℚ) :
    (addPayment s p now).paymentCount
      = (s.paymentHistory ++ [storedEvent p now]).length := by
  unfold addPayment
  dsimp only
  split_ifs <;> rfl

theorem addPayment_isRecurring_eq (s : Subscription) (p : PaymentData)
    (now : ℚ) :
    (addPayment s p now).isRecurring
      = if 1 < (s.paymentHistory ++ [storedEvent p now]).length then true
        else s.isRecurring := by
  unfold addPayment
  dsimp only
  split_ifs <;> rfl

theorem addPayment_lastPaymentDate_eq (s : Subscription) (p : PaymentData)
    (now : ℚ) :
    (addPayment s p now).lastPaymentDate = some (p.date.getD now) := by
  unfold addPayment
  dsimp only
  split_ifs <;> rfl

theorem analyzeMutatedHistory_perm (l : List PaymentEvent) :
    (analyzeMutatedHistory l).Perm l := by
  unfold analyzeMutatedHistory
  split
  · exact List.Perm.refl l
  · exact sortPayments_perm l

/-- C5 counterexample: when the new payment is older than a stored one, the
pattern analysis triggered by `addPayment` re-sorts the stored history, so
the prior elements do not stay in place (here the first element changes). -/
theorem addPayment_reorders_prior_history :
    (addPayment subLate payEarly 5184000000).paymentHistory.take
        subLate.paymentHistory.length
      ≠ subLate.paymentHistory := by
  have h1 : (addPayment subLate payEarly 5184000000).paymentHistory
      = [eEarly, eLate] := by
    norm_num [addPayment, subLate, subBase, freshSubscription, storedEvent,
      payLate, payEarly, analyzePaymentConsistency, analyzeMutatedHistory,
      sortPayments, List.insertionSort, List.orderedInsert, averageIntervalOf,
      avgAmountOf, intervalsOf, msPerDay, eEarly, eLate]
  have h2 : subLate.paymentHistory = [eLate] := by
    norm_num [addPayment, subLate, subBase, freshSubscription, storedEvent,
      payLate, eLate]
  rw [h1, h2]
  intro hEq
  simp only [List.length_cons, List.length_nil, List.take_succ_cons,
    List.take_zero, List.cons.injEq] at hEq
  have : eEarly.date = eLate.date := by rw [hEq.1]
  norm_num [eEarly, eLate] at this

/-- C5 amended: each `addPayment` call grows the history by exactly one
event — the supplied event with date defaulting to now, currency to `USD`
and confidence to 0 — and leaves `paymentCount` equal to the history length;
the new history is the old one with the stored event appended when the
resulting count is at most 1, and the date-sorted rearrangement of that
(a permutation, so prior elements are preserved but possibly moved) when
the count exceeds 1, because the triggered analysis sorts in place. -/
theorem addPayment_append_spec (s : Subscription) (p : PaymentData) (now : ℚ) :
    (addPayment s p now).paymentHistory.length = s.paymentHistory.length + 1
    ∧ ((addPayment s p now).paymentHistory).Perm
        (s.paymentHistory ++ [storedEvent p now])
    ∧ storedEvent p now ∈ (addPayment s p now).paymentHistory
    ∧ (p.date = none → (storedEvent p now).date = now)
    ∧ (p.currency = none → (storedEvent p now).currency = "USD")
    ∧ (p.confidence = none → (storedEvent p now).confidence = 0)
    ∧ (addPayment s p now).paymentCount
        = (addPayment s p now).paymentHistory.length
    ∧ ((addPayment s p now).paymentCount ≤ 1 →
        (addPayment s p now).paymentHistory
          = s.paymentHistory ++ [storedEvent p now])
    ∧ (1 < (addPayment s p now).paymentCount →
        (addPayment s p now).paymentHistory
          = sortPayments (s.paymentHistory ++ [storedEvent p now])) := by
  have hperm : ((addPayment s p now).paymentHistory).Perm
      (s.paymentHistory ++ [storedEvent p now]) := by
    rw [addPayment_paymentHistory_eq]
    exact analyzeMutatedHistory_perm _
  refine ⟨?_, hperm, ?_, ?_, ?_, ?_, ?_, ?_, ?_⟩
  · rw [addPayment_paymentHistory_eq, analyzeMutatedHistory_length]
    simp
  · exact hperm.mem_iff.mpr (by simp)
  · intro hd; simp [storedEvent, hd]
  · intro hc; simp [storedEvent, hc]
  · intro hc; simp [storedEvent, hc]
  · rw [addPayment_paymentCount_eq, addPayment_paymentHistory_eq,
      analyzeMutatedHistory_length]
  · intro hle
    rw [addPayment_paymentCount_eq] at hle
    rw [addPayment_paymentHistory_eq]
    unfold analyzeMutatedHistory
    rw [if_pos (by omega)]
  · intro hgt
    rw [addPayment_paymentCount_eq] at hgt
    rw [addPayment_paymentHistory_eq]
    unfold analyzeMutatedHistory
    rw [if_neg (by omega)]

/-- Witness for C5 at a first payment on a fresh record (count stays 1, so
the history is the literal append) with every optional field missing. -/
theorem addPayment_append_spec_witness :
    (addPayment subBase ⟨none, 100, none, none, none⟩ 0).paymentHistory.length
        = subBase.paymentHistory.length + 1
    ∧ (storedEvent ⟨none, 100, none, none, none⟩ 0).date = 0
    ∧ (storedEvent ⟨none, 100, none, none, none⟩ 0).currency = "USD"
    ∧ (storedEvent ⟨none, 100, none, none, none⟩ 0).confidence = 0
    ∧ ((addPayment subBase ⟨none, 100, none, none, none⟩ 0).paymentCount ≤ 1 →
        (addPayment subBase ⟨none, 100, none, none, none⟩ 0).paymentHistory
          = subBase.paymentHistory ++ [storedEvent ⟨none, 100, none, none, none⟩ 0]) :=
  ⟨(addPayment_append_spec subBase ⟨none, 100, none, none, none⟩ 0).1,
   (addPayment_append_spec subBase ⟨none, 100, none, none, none⟩ 0).2.2.2.1 rfl,
   (addPayment_append_spec subBase ⟨none, 100, none, none, none⟩ 0).2.2.2.2.1 rfl,
   (addPayment_append_spec subBase ⟨none, 100, none, none, none⟩ 0).2.2.2.2.2.1 rfl,
   (addPayment_append_spec subBase ⟨none, 100, none, none, none⟩ 0).2.2.2.2.2.2.2.1⟩

/-- C6: `addPayment` never lowers `confidenceScore`, and when the call
leaves more than one recorded payment and the analysis of the pushed
history reports both consistency and a monthly pattern, the score afterwards
is at least 8 (`Math.max(confidenceScore, 8)`). -/
theorem addPayment_confidence_ratchet (s : Subscription) (p : PaymentData)
    (now : ℚ) :
    s.confidenceScore ≤ (addPayment s p now).confidenceScore
    ∧ (1 < (addPayment s p now).paymentCount →
        (analyzePaymentConsistency
            (s.paymentHistory ++ [storedEvent p now])).isConsistent = true →
        (analyzePaymentConsistency
            (s.paymentHistory ++ [storedEvent p now])).hasMonthlyPattern = true →
        8 ≤ (addPayment s p now).confidenceScore) := by
  unfold addPayment
  dsimp only
  split_ifs with h1 h2
  · exact ⟨le_max_left _ _, fun _ _ _ => le_max_right _ _⟩
  · exact ⟨le_refl _, fun _ hc hm => absurd (by simp [hc, hm]) h2⟩
  · exact ⟨le_refl _, fun hcount _ _ => absurd hcount h1⟩

/-- Witness for C6: a second, consistent monthly payment lifts the score
of a fresh record from 0 to at least 8 without ever lowering it. -/
theorem addPayment_confidence_ratchet_witness :
    subLate.confidenceScore ≤ (addPayment subLate payEarly 5184000000).confidenceScore
    ∧ 8 ≤ (addPayment subLate payEarly 5184000000).confidenceScore :=
  ⟨(addPayment_confidence_ratchet subLate payEarly 5184000000).1,
   (addPayment_confidence_ratchet subLate payEarly 5184000000).2
    (by norm_num [addPayment, subLate, subBase, freshSubscription, storedEvent,
      payLate, payEarly, analyzePaymentConsistency, analyzeMutatedHistory,
      sortPayments, List.insertionSort, List.orderedInsert, averageIntervalOf,
      avgAmountOf, intervalsOf, msPerDay])
    (by norm_num [subLate, subBase, addPayment, freshSubscription, storedEvent,
      payLate, payEarly, analyzePaymentConsistency, analyzeMutatedHistory,
      sortPayments, List.insertionSort, List.orderedInsert, averageIntervalOf,
      avgAmountOf, intervalsOf, msPerDay])
    (by norm_num [subLate, subBase, addPayment, freshSubscription, storedEvent,
      payLate, payEarly, analyzePaymentConsistency, analyzeMutatedHistory,
      sortPayments, List.insertionSort, List.orderedInsert, averageIntervalOf,
      avgAmountOf, intervalsOf, msPerDay])⟩

theorem reachable_inv (s : Subscription) (h : Reachable s) :
    s.paymentCount = s.paymentHistory.length
    ∧ (s.isRecurring = true → 1 < s.paymentCount)
    ∧ (2 ≤ s.paymentCount → s.isRecurring = true) := by
  induction h with
  | fresh name amount currency renewalDay =>
    exact ⟨rfl, fun hx => by simp [freshSubscription] at hx,
      fun hx => by norm_num [freshSubscription] at hx⟩
  | payment p now hr ih =>
    obtain ⟨ihc, ihr, ihm⟩ := ih
    refine ⟨?_, ?_, ?_⟩
    · rw [addPayment_paymentCount_eq, addPayment_paymentHistory_eq,
        analyzeMutatedHistory_length]
    · rw [addPayment_isRecurring_eq, addPayment_paymentCount_eq]
      split_ifs with hlen
      · exact fun _ => hlen
      · intro hrec
        have h1 := ihr hrec
        simp only [List.length_append, List.length_cons, List.length_nil] at hlen ⊢
        omega
    · rw [addPayment_isRecurring_eq, addPayment_paymentCount_eq]
      intro h2
      split_ifs with hlen
      · rfl
      · exact absurd (by omega) hlen
  | cancel reason now hr ih => simpa [cancelSubscription] using ih
  | analyze hr ih =>
    obtain ⟨ihc, ihr, ihm⟩ := ih
    refine ⟨?_, ihr, ihm⟩
    unfold runAnalyze
    dsimp only
    rw [analyzeMutatedHistory_length]
    exact ihc
  | save isNew modRD nowCal hr ih =>
    obtain ⟨ihc, ihr, ihm⟩ := ih
    unfold preSave
    dsimp only
    split_ifs <;> exact ⟨ihc, ihr, ihm⟩

/-- C7: in every reachable state `isRecurring` holds only with more than one
recorded payment; it holds whenever at least two payments were recorded —
in particular from the second `addPayment` on a fresh record — and every
operation of the model preserves it once set (`isLikelyValid` reads the
record without writing it, so it cannot clear the flag either). -/
theorem isRecurring_lifecycle (s : Subscription) (h : Reachable s) :
    (s.isRecurring = true → 1 < s.paymentCount)
    ∧ (2 ≤ s.paymentCount → s.isRecurring = true)
    ∧ (∀ (name : String) (amount : ℚ) (currency : String) (renewalDay : Nat)
        (p₁ : PaymentData) (t₁ : ℚ) (p₂ : PaymentData) (t₂ : ℚ),
        (addPayment (addPayment (freshSubscription name amount currency renewalDay)
            p₁ t₁) p₂ t₂).isRecurring = true)
    ∧ (s.isRecurring = true → ∀ p t, (addPayment s p t).isRecurring = true)
    ∧ (s.isRecurring = true → ∀ r t, (cancelSubscription s r t).isRecurring = true)
    ∧ (s.isRecurring = true → (runAnalyze s).isRecurring = true)
    ∧ (s.isRecurring = true →
        ∀ b₁ b₂ dt, (preSave s b₁ b₂ dt).isRecurring = true) := by
  obtain ⟨ihc, ihr, ihm⟩ := reachable_inv s h
  refine ⟨ihr, ihm, ?_, ?_, ?_, ?_, ?_⟩
  · intro name amount currency renewalDay p₁ t₁ p₂ t₂
    have hlen : (addPayment (freshSubscription name amount currency renewalDay)
        p₁ t₁).paymentHistory.length = 1 := by
      rw [addPayment_paymentHistory_eq, analyzeMutatedHistory_length]
      simp [freshSubscription]
    rw [addPayment_isRecurring_eq]
    rw [if_pos (by simp [hlen])]
  · intro hrec p t
    rw [addPayment_isRecurring_eq]
    split_ifs
    · rfl
    · exact hrec
  · intro hrec r t
    exact hrec
  · intro hrec
    exact hrec
  · intro hrec b₁ b₂ dt
    unfold preSave
    dsimp only
    split_ifs <;> exact hrec

/-- Witness for C7: the second payment on a concrete fresh record switches
`isRecurring` on. -/
theorem isRecurring_lifecycle_witness :
    (addPayment (addPayment (freshSubscription "Acme" 42 "USD" 7) payLate 0)
        payEarly 0).isRecurring = true :=
  (isRecurring_lifecycle (freshSubscription "Acme" 42 "USD" 7)
      (Reachable.fresh "Acme" 42 "USD" 7)).2.2.1 "Acme" 42 "USD" 7 payLate 0
    payEarly 0

/-- C9: cancelling clears `isActive`, stamps the cancellation date and
reason (defaulting to "User cancelled"), leaves every other field — the
payment history included — untouched, and the next save forces
`nextRenewal` to null because the cancellation date is set. -/
theorem cancelSubscription_spec (s : Subscription) (reason : Option String)
    (now : ℚ) (isNew modRD : Bool) (nowCal : CalDate) :
    (cancelSubscription s reason now).isActive = false
    ∧ (cancelSubscription s reason now).cancellationDate = some now
    ∧ (reason = none →
        (cancelSubscription s reason now).cancellationReason = "User cancelled")
    ∧ (∀ r, reason = some r →
        (cancelSubscription s reason now).cancellationReason = r)
    ∧ (cancelSubscription s reason now).paymentHistory = s.paymentHistory
    ∧ (cancelSubscription s reason now).paymentCount = s.paymentCount
    ∧ (cancelSubscription s reason now).lastPaymentDate = s.lastPaymentDate
    ∧ (cancelSubscription s reason now).isRecurring = s.isRecurring
    ∧ (cancelSubscription s reason now).confidenceScore = s.confidenceScore
    ∧ (cancelSubscription s reason now).serviceName = s.serviceName
    ∧ (cancelSubscription s reason now).amount = s.amount
    ∧ (cancelSubscription s reason now).currency = s.currency
    ∧ (cancelSubscription s reason now).renewalDay = s.renewalDay
    ∧ (cancelSubscription s reason now).nextRenewal = s.nextRenewal
    ∧ (cancelSubscription s reason now).category = s.category
    ∧ (cancelSubscription s reason now).description = s.description
    ∧ (cancelSubscription s reason now).detectedFromEmail = s.detectedFromEmail
    ∧ (cancelSubscription s reason now).hasPaymentHistory = s.hasPaymentHistory
    ∧ (cancelSubscription s reason now).hasConsistentRenewalDate
        = s.hasConsistentRenewalDate
    ∧ (preSave (cancelSubscription s reason now) isNew modRD nowCal).nextRenewal
        = none := by
  refine ⟨rfl, rfl, ?_, ?_, rfl, rfl, rfl, rfl, rfl, rfl, rfl, rfl, rfl, rfl,
    rfl, rfl, rfl, rfl, rfl, ?_⟩
  · rintro rfl
    rfl
  · rintro r rfl
    rfl
  · unfold preSave
    dsimp only
    split_ifs with hre hc hc <;> simp_all [cancelSubscription]

/-- Witness for C9: cancelling a concrete record without a reason. -/
theorem cancelSubscription_spec_witness :
    (cancelSubscription subBase none 0).isActive = false
    ∧ (cancelSubscription subBase none 0).cancellationReason = "User cancelled"
    ∧ (preSave (cancelSubscription subBase none 0) true false
        ⟨2025, 0, 1⟩).nextRenewal = none :=
  ⟨(cancelSubscription_spec subBase none 0 true false ⟨2025, 0, 1⟩).1,
   (cancelSubscription_spec subBase none 0 true false ⟨2025, 0, 1⟩).2.2.1 rfl,
   (cancelSubscription_spec subBase none 0 true false
      ⟨2025, 0, 1⟩).2.2.2.2.2.2.2.2.2.2.2.2.2.2.2.2.2.2.2⟩

/-- C10: `addPayment` stores the supplied event date into `lastPaymentDate`
unconditionally, so recording an out-of-order (older) payment moves
`lastPaymentDate` backwards: it tracks the most recently recorded payment,
not the maximum date in the history (which still holds the larger date). -/
theorem addPayment_lastPaymentDate_spec (s : Subscription) (p : PaymentData)
    (now : ℚ) (d : ℚ) :
    (p.date = some d → (addPayment s p now).lastPaymentDate = some d)
    ∧ (p.date = none → (addPayment s p now).lastPaymentDate = some now)
    ∧ (addPayment subLate payEarly 5184000000).lastPaymentDate = some 0
    ∧ subLate.lastPaymentDate = some 2592000000
    ∧ (2592000000 : ℚ)
        ∈ ((addPayment subLate payEarly 5184000000).paymentHistory.map (·.date))
    ∧ (0 : ℚ) < 2592000000 := by
  refine ⟨?_, ?_, ?_, ?_, ?_, by norm_num⟩
  · intro hd
    rw [addPayment_lastPaymentDate_eq, hd]
    rfl
  · intro hd
    rw [addPayment_lastPaymentDate_eq, hd]
    rfl
  · rw [addPayment_lastPaymentDate_eq]
    rfl
  · rw [subLate, addPayment_lastPaymentDate_eq]
    rfl
  · have h1 : (addPayment subLate payEarly 5184000000).paymentHistory
        = [eEarly, eLate] := by
      norm_num [addPayment, subLate, subBase, freshSubscription, storedEvent,
        payLate, payEarly, analyzePaymentConsistency, analyzeMutatedHistory,
        sortPayments, List.insertionSort, List.orderedInsert, averageIntervalOf,
        avgAmountOf, intervalsOf, msPerDay, eEarly, eLate]
    rw [h1]
    norm_num [eEarly, eLate]

/-- Witness for C10: the date-supplied case at a concrete payment. -/
theorem addPayment_lastPaymentDate_spec_witness :
    (addPayment subBase payLate 0).lastPaymentDate = some 2592000000 :=
  (addPayment_lastPaymentDate_spec subBase payLate 0 2592000000).1 rfl

end Subwallet
